import Mathlib

/-!
Magic Mirror: enrollment and recognition engine, shallow embedding.

This file embeds the face-enrollment and recognition logic of the Magic
Mirror web application and proves the specified properties about it.

Embedded source functions:
* `calculateEuclideanDistance` — `src/lib/db.ts` (throws on length mismatch,
  else returns the L2 distance); the throw is modelled as `Except.error`.
* `findBestMatch` — `src/lib/face-recognition.ts`: single pass over the
  catalog with a mutable best-so-far accumulator initialised to the
  threshold, modelled as structural recursion carrying the accumulator.
* `findUserByFaceDescriptor` — `src/lib/db.ts`: the same scan over database
  user records, with the surrounding try/catch (any thrown
  dimension-mismatch yields `null`).
* `POST /api/recognize` — `src/app/api/recognize/route.ts`: request
  validation and threshold/confidence defaulting (JavaScript `||`, which
  replaces `0` as well as a missing field) followed by the match.
* `processTrainingData` / descriptor averaging — `src/app/train/page.tsx`.

JavaScript numbers are modelled as real numbers.  In the training-page
averaging loop an out-of-range index access yields `undefined` and
arithmetic on it yields `NaN`; those two non-number values are modelled by
`Option ℝ` with `none` standing for `undefined`/`NaN` (which is absorbing
for the arithmetic performed there).
-/

namespace MagicMirror

noncomputable section

/-- Error raised by `calculateEuclideanDistance` ("Descriptors must have the
same length"), i.e. the spec's `DimensionMismatch`. -/
inductive DistanceError where
  | dimensionMismatch
deriving DecidableEq

/-- Sum of squared coordinate-wise differences, accumulated in input order,
as in the `for` loop of `calculateEuclideanDistance`.  The loop runs over
the common length; here recursion stops when either list is exhausted,
which coincides with the source whenever the lengths are equal (the only
case in which the source reaches the loop). -/
def sumSqDiff : List ℝ → List ℝ → ℝ
  | a :: as, b :: bs => (a - b) ^ 2 + sumSqDiff as bs
  | _, _ => 0

/-- Function `calculateEuclideanDistance` from `src/lib/db.ts`: throws when the
descriptor lengths differ, otherwise returns `Math.sqrt` of the sum of
squared coordinate-wise differences. -/
def calculateEuclideanDistance (desc1 desc2 : List ℝ) : Except DistanceError ℝ :=
  if desc1.length ≠ desc2.length then .error .dimensionMismatch
  else .ok (Real.sqrt (sumSqDiff desc1 desc2))

/-- Modelled from the spec: `compareFaceDescriptors` in
`src/lib/face-recognition.ts` delegates to the external library call
`faceapi.euclideanDistance`, whose code is not part of this repository; the
spec (§4.2) describes it as the Euclidean (L2) distance of the two
descriptors. -/
def compareFaceDescriptors (descriptor1 descriptor2 : List ℝ) : ℝ :=
  Real.sqrt (sumSqDiff descriptor1 descriptor2)

/-- One catalog entry passed to `findBestMatch`. -/
structure KnownDescriptor where
  descriptor : List ℝ
  userId : String
  name : String

/-- Structure `RecognitionResult` from `src/types`. -/
structure RecognitionResult where
  userId : String
  name : String
  confidence : ℝ
deriving DecidableEq

/-- The `for (const known of knownDescriptors)` loop of `findBestMatch`,
carrying the mutable `bestMatch` / `bestDistance` pair explicitly. -/
def findBestMatchGo (inputDescriptor : List ℝ) :
    List KnownDescriptor → Option RecognitionResult → ℝ → Option RecognitionResult
  | [], bestMatch, _ => bestMatch
  | known :: rest, bestMatch, bestDistance =>
    let distance := compareFaceDescriptors inputDescriptor known.descriptor
    if distance < bestDistance then
      findBestMatchGo inputDescriptor rest
        (some ⟨known.userId, known.name, 1 - distance⟩) distance
    else
      findBestMatchGo inputDescriptor rest bestMatch bestDistance

/-- Function `findBestMatch` from `src/lib/face-recognition.ts`: `bestMatch` starts
as `null` and `bestDistance` starts at the threshold (0.6 by default in the source); each candidate
strictly closer than the current best replaces it. -/
def findBestMatch (inputDescriptor : List ℝ) (knownDescriptors : List KnownDescriptor)
    (threshold : ℝ) : Option RecognitionResult :=
  findBestMatchGo inputDescriptor knownDescriptors none threshold

/-- Distance of a catalog entry to a query, abbreviating the scan's
per-candidate computation. -/
def entryDist (inputDescriptor : List ℝ) (known : KnownDescriptor) : ℝ :=
  compareFaceDescriptors inputDescriptor known.descriptor

/-! ## Database layer (`src/lib/db.ts`) -/

/-- A user row as stored by Prisma, restricted to the fields the embedded
code reads.  `getAllFaceDescriptors` projects `(descriptor, userId, name)`
from these rows and `getUserById` fetches the full row back by id; the
model passes the rows themselves through the scan, which coincides with the
source on a consistent database snapshot. -/
structure UserRecord where
  id : String
  name : String
  email : Option String
  descriptor : List ℝ

/-- The `for (const userData of users)` loop of `findUserByFaceDescriptor`,
carrying `bestMatch.user` / `bestMatch.distance` explicitly.  A
length-mismatch throw from `calculateEuclideanDistance` aborts the loop and
propagates as `Except.error`. -/
def findUserGo (inputDescriptor : List ℝ) :
    List UserRecord → Option UserRecord → ℝ → Except DistanceError (Option UserRecord)
  | [], bestUser, _ => .ok bestUser
  | userData :: rest, bestUser, bestDistance =>
    match calculateEuclideanDistance inputDescriptor userData.descriptor with
    | .error e => .error e
    | .ok distance =>
      if distance < bestDistance then
        findUserGo inputDescriptor rest (some userData) distance
      else
        findUserGo inputDescriptor rest bestUser bestDistance

/-- Function `findUserByFaceDescriptor` from `src/lib/db.ts`: the same
best-so-far scan, initialised with `user = null` and
`distance = threshold`; the enclosing `try/catch` turns any thrown error
into a `null` result. -/
def findUserByFaceDescriptor (inputDescriptor : List ℝ) (threshold : ℝ)
    (users : List UserRecord) : Option UserRecord :=
  match findUserGo inputDescriptor users none threshold with
  | .ok bestUser => bestUser
  | .error _ => none

/-! ## `POST /api/recognize` (`src/app/api/recognize/route.ts`) -/

/-- JavaScript `a || d` on an optional numeric field: a missing field and
the number `0` are both falsy and fall back to the default. -/
def jsOrNum (a : Option ℝ) (d : ℝ) : ℝ :=
  match a with
  | none => d
  | some x => if x = 0 then d else x

/-- The JSON body of a `POST /api/recognize` request, restricted to the
fields the route reads.  `faceDescriptor = none` covers both a missing
field and a non-array value (the route rejects either). -/
structure RecognizeBody where
  faceDescriptor : Option (List ℝ)
  threshold : Option ℝ
  confidence : Option ℝ

/-- The observable outcome of the route: a 400 validation response, a
recognition response (whose confidence is also recorded in the created
session), or a no-match response echoing the threshold it used. -/
inductive RecognizeResponse where
  | badRequest (error : String)
  | recognized (userId name : String) (email : Option String) (confidence : ℝ)
  | notRecognized (threshold : ℝ)
deriving DecidableEq

/-- The part of the route after validation: look up the matching user at
the effective threshold and build the response.  On a match the confidence
sent to `createSession` and returned in the response is
`body.confidence || 0.8`, independent of the match distance. -/
def recognizeWithThreshold (body : RecognizeBody) (fd : List ℝ)
    (catalog : List UserRecord) (threshold : ℝ) : RecognizeResponse :=
  match findUserByFaceDescriptor fd threshold catalog with
  | some matchedUser =>
    .recognized matchedUser.id matchedUser.name matchedUser.email
      (jsOrNum body.confidence 0.8)
  | none => .notRecognized threshold

/-- Handler `POST` from `src/app/api/recognize/route.ts`: validate the descriptor
(present, 128-dimensional), compute the effective threshold as
`body.threshold || 0.6`, reject it outside `[0, 1]`, then match. -/
def recognizePOST (body : RecognizeBody) (catalog : List UserRecord) :
    RecognizeResponse :=
  match body.faceDescriptor with
  | none => .badRequest "Valid face descriptor is required"
  | some fd =>
    if fd.length ≠ 128 then .badRequest "Face descriptor must be 128 dimensions"
    else
      let threshold := jsOrNum body.threshold 0.6
      if threshold < 0 ∨ threshold > 1 then
        .badRequest "Threshold must be between 0 and 1"
      else recognizeWithThreshold body fd catalog threshold

/-! ## Training page (`src/app/train/page.tsx`) -/

/-- A captured training photo, restricted to the fields
`processTrainingData` reads; `descriptor = none` models a photo whose face
detection returned `null` (the source then stores `undefined`). -/
structure TrainingPhoto where
  faceDetected : Bool
  descriptor : Option (List ℝ)

/-- JavaScript `+` on possibly-non-number values: `undefined` or `NaN` on
either side yields `NaN` (`none`). -/
def jsAdd : Option ℝ → Option ℝ → Option ℝ
  | some a, some b => some (a + b)
  | _, _ => none

/-- Expression `descriptorArrays.reduce((sum, desc) => sum + desc[i], 0)`: sum of the
`i`-th coordinates in input order, starting from `0`; an out-of-range
`desc[i]` is `undefined` and poisons the sum to `NaN`. -/
def sumAt (descriptorArrays : List (List ℝ)) (i : ℕ) : Option ℝ :=
  descriptorArrays.foldl (fun sum desc => jsAdd sum (desc.get? i)) (some 0)

/-- The averaging step of `processTrainingData`
(`descriptorArrays[0].map((_, i) => reduce(...) / descriptorArrays.length)`):
one coordinate per index of the FIRST valid descriptor.  The source only
reaches this with a non-empty list (≥ 3 valid photos); on `[]` the source
would throw reading `descriptorArrays[0]`, modelled here as `[]`. -/
def avgDescriptor (descriptorArrays : List (List ℝ)) : List (Option ℝ) :=
  match descriptorArrays with
  | [] => []
  | d0 :: _ =>
    (List.range d0.length).map fun i =>
      (sumAt descriptorArrays i).map fun s => s / (descriptorArrays.length : ℝ)

/-- Observable outcome of `processTrainingData`: either the error banner
`"Need at least 3 photos with detected faces. Got <got>."` (reporting the
actual count, with 3 the required minimum) and no API call, or the body
submitted to `POST /api/users` (averaged descriptor and number of photos
used). -/
inductive TrainOutcome where
  | insufficientSamples (got required : ℕ)
  | submitted (faceDescriptor : List (Option ℝ)) (sampleCount : ℕ)
deriving DecidableEq

/-- Function `processTrainingData` from `src/app/train/page.tsx`: filter photos to
those with a (truthy) descriptor, fail below 3 valid photos, otherwise
average the valid descriptors coordinate-wise and submit. -/
def processTrainingData (photos : List TrainingPhoto) : TrainOutcome :=
  let validPhotos := photos.filter fun photo => photo.descriptor.isSome
  if validPhotos.length < 3 then
    .insufficientSamples validPhotos.length 3
  else
    .submitted (avgDescriptor (validPhotos.map fun photo => photo.descriptor.getD []))
      validPhotos.length

/-! ## Basic facts about the distance computation -/

lemma sumSqDiff_nonneg : ∀ a b : List ℝ, 0 ≤ sumSqDiff a b
  | x :: xs, y :: ys => by
    have h := sumSqDiff_nonneg xs ys
    simp only [sumSqDiff]
    positivity
  | [], _ => le_of_eq (by cases ‹List ℝ› <;> rfl)
  | _ :: _, [] => le_refl 0

lemma sumSqDiff_comm : ∀ a b : List ℝ, sumSqDiff a b = sumSqDiff b a
  | [], [] => rfl
  | [], _ :: _ => rfl
  | _ :: _, [] => rfl
  | x :: xs, y :: ys => by
    simp only [sumSqDiff, sumSqDiff_comm xs ys]
    ring_nf

lemma sumSqDiff_self : ∀ a : List ℝ, sumSqDiff a a = 0
  | [] => rfl
  | x :: xs => by simp [sumSqDiff, sumSqDiff_self xs]

lemma sumSqDiff_eq_zero_iff :
    ∀ a b : List ℝ, a.length = b.length → (sumSqDiff a b = 0 ↔ a = b)
  | [], [], _ => by simp [sumSqDiff]
  | x :: xs, y :: ys, h => by
    have hlen : xs.length = ys.length := by simpa using h
    have h1 : (0:ℝ) ≤ (x - y) ^ 2 := sq_nonneg _
    have h2 : (0:ℝ) ≤ sumSqDiff xs ys := sumSqDiff_nonneg xs ys
    simp only [sumSqDiff]
    rw [add_eq_zero_iff_of_nonneg h1 h2, pow_eq_zero_iff (two_ne_zero), sub_eq_zero,
      sumSqDiff_eq_zero_iff xs ys hlen]
    simp

lemma compareFaceDescriptors_nonneg (a b : List ℝ) :
    0 ≤ compareFaceDescriptors a b :=
  Real.sqrt_nonneg _

lemma entryDist_nonneg (input : List ℝ) (k : KnownDescriptor) :
    0 ≤ entryDist input k :=
  Real.sqrt_nonneg _

/-! ## Claims C8 and C9: properties of the distance metric -/

/-- C8: for embeddings of equal length, `calculateEuclideanDistance` is
symmetric, and it is zero exactly when the two embeddings are
coordinate-wise identical. -/
theorem calculateEuclideanDistance_symm_zero (a b : List ℝ)
    (h : a.length = b.length) :
    calculateEuclideanDistance a b = calculateEuclideanDistance b a ∧
      (calculateEuclideanDistance a b = .ok 0 ↔ a = b) := by
  have hab : ¬ a.length ≠ b.length := by simp [h]
  have hba : ¬ b.length ≠ a.length := by simp [h]
  constructor
  · simp only [calculateEuclideanDistance, if_neg hab, if_neg hba, sumSqDiff_comm a b]
  · simp only [calculateEuclideanDistance, if_neg hab, Except.ok.injEq]
    rw [Real.sqrt_eq_zero (sumSqDiff_nonneg a b)]
    exact sumSqDiff_eq_zero_iff a b h

/-- Witness for C8 at a concrete pair of equal-length embeddings. -/
theorem calculateEuclideanDistance_symm_zero_witness :
    ([(1:ℝ), 2].length = [(2:ℝ), 1].length) ∧
      (calculateEuclideanDistance [(1:ℝ), 2] [(2:ℝ), 1] =
        calculateEuclideanDistance [(2:ℝ), 1] [(1:ℝ), 2] ∧
      (calculateEuclideanDistance [(1:ℝ), 2] [(2:ℝ), 1] = .ok 0 ↔
        [(1:ℝ), 2] = [(2:ℝ), 1])) :=
  ⟨rfl, calculateEuclideanDistance_symm_zero [(1:ℝ), 2] [(2:ℝ), 1] rfl⟩

/-- C9: computing the distance of two embeddings of unequal length fails
with the dimension-mismatch error instead of returning a number. -/
theorem calculateEuclideanDistance_mismatch (a b : List ℝ)
    (h : a.length ≠ b.length) :
    calculateEuclideanDistance a b = .error .dimensionMismatch := by
  simp [calculateEuclideanDistance, h]

/-- Witness for C9 at a concrete pair of unequal-length embeddings. -/
theorem calculateEuclideanDistance_mismatch_witness :
    ([(0:ℝ)].length ≠ ([] : List ℝ).length) ∧
      calculateEuclideanDistance [(0:ℝ)] [] = .error .dimensionMismatch :=
  ⟨by simp, calculateEuclideanDistance_mismatch [(0:ℝ)] [] (by simp)⟩

/-! ## The best-so-far scan of `findBestMatch` -/

/-- If no remaining candidate is strictly closer than the current best
distance, the scan keeps the current best match unchanged. -/
lemma findBestMatchGo_of_forall_le (input : List ℝ) :
    ∀ (l : List KnownDescriptor) (best : Option RecognitionResult) (bd : ℝ),
      (∀ k ∈ l, bd ≤ entryDist input k) →
      findBestMatchGo input l best bd = best
  | [], _, _, _ => rfl
  | k :: rest, best, bd, h => by
    have hk : bd ≤ compareFaceDescriptors input k.descriptor :=
      h k (List.mem_cons_self k rest)
    simp only [findBestMatchGo]
    rw [if_neg (not_lt.mpr hk)]
    exact findBestMatchGo_of_forall_le input rest best bd
      (fun k2 hk2 => h k2 (List.mem_cons_of_mem k hk2))

/-- The scan yields `none` exactly when it started with `none` and no
candidate beats the initial best distance. -/
lemma findBestMatchGo_eq_none_iff (input : List ℝ) :
    ∀ (l : List KnownDescriptor) (best : Option RecognitionResult) (bd : ℝ),
      (findBestMatchGo input l best bd = none ↔
        best = none ∧ ∀ k ∈ l, bd ≤ entryDist input k)
  | [], best, bd => by simp [findBestMatchGo]
  | k :: rest, best, bd => by
    simp only [findBestMatchGo]
    by_cases hd : compareFaceDescriptors input k.descriptor < bd
    · rw [if_pos hd]
      apply iff_of_false
      · rw [findBestMatchGo_eq_none_iff input rest]
        simp
      · rintro ⟨-, hall⟩
        exact absurd (hall k (List.mem_cons_self k rest)) (not_le.mpr hd)
    · rw [if_neg hd]
      rw [findBestMatchGo_eq_none_iff input rest]
      have hk : bd ≤ entryDist input k := not_lt.mp hd
      simp only [List.mem_cons, forall_eq_or_imp]
      constructor
      · rintro ⟨hb, hrest⟩
        exact ⟨hb, hk, hrest⟩
      · rintro ⟨hb, -, hrest⟩
        exact ⟨hb, hrest⟩

/-- If the scan yields a result, either it is the untouched initial best
(no candidate beat the initial distance), or it is built from a candidate
whose distance is strictly below the initial best distance and minimal
over the whole scanned list. -/
lemma findBestMatchGo_eq_some (input : List ℝ) :
    ∀ (l : List KnownDescriptor) (best : Option RecognitionResult) (bd : ℝ)
      (r : RecognitionResult),
      findBestMatchGo input l best bd = some r →
      (best = some r ∧ ∀ k ∈ l, bd ≤ entryDist input k) ∨
      ∃ k ∈ l, r = ⟨k.userId, k.name, 1 - entryDist input k⟩ ∧
        entryDist input k < bd ∧
        ∀ k2 ∈ l, entryDist input k ≤ entryDist input k2
  | [], best, bd, r => by
    intro h
    exact Or.inl ⟨h, by simp⟩
  | k :: rest, best, bd, r => by
    simp only [findBestMatchGo]
    by_cases hd : compareFaceDescriptors input k.descriptor < bd
    · rw [if_pos hd]
      intro h
      rcases findBestMatchGo_eq_some input rest _ _ r h with ⟨hr, hall⟩ | ⟨c, hc, hrc, hcd, hcmin⟩
      · refine Or.inr ⟨k, List.mem_cons_self k rest, (Option.some.injEq _ _).mp hr.symm, hd, ?_⟩
        intro k2 hk2
        rcases List.mem_cons.mp hk2 with h2 | h2
        · exact le_of_eq (by rw [h2])
        · exact hall k2 h2
      · refine Or.inr ⟨c, List.mem_cons_of_mem k hc, hrc, lt_trans hcd hd, ?_⟩
        intro k2 hk2
        rcases List.mem_cons.mp hk2 with h2 | h2
        · exact le_of_lt (h2 ▸ hcd)
        · exact hcmin k2 h2
    · rw [if_neg hd]
      intro h
      have hk : bd ≤ entryDist input k := not_lt.mp hd
      rcases findBestMatchGo_eq_some input rest _ _ r h with ⟨hr, hall⟩ | ⟨c, hc, hrc, hcd, hcmin⟩
      · refine Or.inl ⟨hr, ?_⟩
        intro k2 hk2
        rcases List.mem_cons.mp hk2 with h2 | h2
        · exact h2 ▸ hk
        · exact hall k2 h2
      · refine Or.inr ⟨c, List.mem_cons_of_mem k hc, hrc, hcd, ?_⟩
        intro k2 hk2
        rcases List.mem_cons.mp hk2 with h2 | h2
        · exact h2 ▸ le_of_lt (lt_of_lt_of_le hcd hk)
        · exact hcmin k2 h2

/-- If a candidate `t` is strictly below the current best distance,
strictly closer than every candidate before it and at most as far as every
candidate after it, the scan ends on `t`. -/
lemma findBestMatchGo_first_min (input : List ℝ) :
    ∀ (l1 : List KnownDescriptor) (t : KnownDescriptor) (l2 : List KnownDescriptor)
      (best : Option RecognitionResult) (bd : ℝ),
      entryDist input t < bd →
      (∀ k ∈ l1, entryDist input t < entryDist input k) →
      (∀ k ∈ l2, entryDist input t ≤ entryDist input k) →
      findBestMatchGo input (l1 ++ t :: l2) best bd =
        some ⟨t.userId, t.name, 1 - entryDist input t⟩
  | [], t, l2, best, bd => by
    intro hbd _ hmin
    have hbd2 : compareFaceDescriptors input t.descriptor < bd := hbd
    simp only [List.nil_append, findBestMatchGo]
    rw [if_pos hbd2]
    exact findBestMatchGo_of_forall_le input l2 _ _ hmin
  | k :: l1, t, l2, best, bd => by
    intro hbd hfirst hmin
    have hkt : entryDist input t < entryDist input k :=
      hfirst k (List.mem_cons_self k l1)
    have hfirst1 : ∀ k2 ∈ l1, entryDist input t < entryDist input k2 :=
      fun k2 hk2 => hfirst k2 (List.mem_cons_of_mem k hk2)
    simp only [List.cons_append, findBestMatchGo]
    by_cases hd : compareFaceDescriptors input k.descriptor < bd
    · rw [if_pos hd]
      exact findBestMatchGo_first_min input l1 t l2 _ _ hkt hfirst1 hmin
    · rw [if_neg hd]
      exact findBestMatchGo_first_min input l1 t l2 _ _ hbd hfirst1 hmin

lemma compareFaceDescriptors_self (a : List ℝ) : compareFaceDescriptors a a = 0 := by
  rw [compareFaceDescriptors, sumSqDiff_self, Real.sqrt_zero]

/-! ## Claims C1, C3 and C4: the recognizer -/

/-- C1: `findBestMatch` returns `null` exactly when no catalog entry is
strictly closer to the query than the threshold (so in particular on an
empty catalog), and any returned match is an entry whose distance is
strictly below the threshold and minimal over the catalog. -/
theorem findBestMatch_match_semantics (input : List ℝ)
    (known : List KnownDescriptor) (threshold : ℝ) :
    (findBestMatch input known threshold = none ↔
      ∀ k ∈ known, ¬ entryDist input k < threshold) ∧
    (∀ r, findBestMatch input known threshold = some r →
      ∃ k ∈ known, r = ⟨k.userId, k.name, 1 - entryDist input k⟩ ∧
        entryDist input k < threshold ∧
        ∀ k2 ∈ known, entryDist input k ≤ entryDist input k2) := by
  constructor
  · rw [findBestMatch, findBestMatchGo_eq_none_iff input known none threshold]
    simp [not_lt]
  · intro r h
    rcases findBestMatchGo_eq_some input known none threshold r h with ⟨hr, -⟩ | hk
    · exact absurd hr (by simp)
    · exact hk

/-- Witness for C1 on a concrete empty catalog: recognition returns
`null`. -/
theorem findBestMatch_match_semantics_witness :
    findBestMatch [(0:ℝ)] [] 0.6 = none :=
  (findBestMatch_match_semantics [(0:ℝ)] [] 0.6).1.mpr (by simp)

/-- C3: every non-`null` recognition result reports confidence exactly
`1 - bestDistance` for the matched entry, and that confidence lies in the
half-open interval `(1 - threshold, 1]`. -/
theorem findBestMatch_confidence (input : List ℝ) (known : List KnownDescriptor)
    (threshold : ℝ) (r : RecognitionResult)
    (h : findBestMatch input known threshold = some r) :
    ∃ k ∈ known, r.userId = k.userId ∧ r.name = k.name ∧
      entryDist input k < threshold ∧
      r.confidence = 1 - entryDist input k ∧
      1 - threshold < r.confidence ∧ r.confidence ≤ 1 := by
  rcases findBestMatchGo_eq_some input known none threshold r h with ⟨hr, -⟩ | ⟨k, hk, hrk, hkd, -⟩
  · exact absurd hr (by simp)
  · refine ⟨k, hk, by rw [hrk], by rw [hrk], hkd, by rw [hrk], ?_, ?_⟩
    · rw [hrk]
      simpa using sub_lt_sub_left hkd 1
    · rw [hrk]
      simpa using entryDist_nonneg input k

/-- Witness for C3 on a concrete one-entry catalog matched at distance 0:
the confidence is 1 and lies in `(1 - 0.6, 1]`. -/
theorem findBestMatch_confidence_witness :
    findBestMatch [(0:ℝ)] [⟨[(0:ℝ)], "A", "a"⟩] 0.6 = some ⟨"A", "a", 1⟩ ∧
      1 - (0.6:ℝ) < 1 ∧ (1:ℝ) ≤ 1 := by
  have hd : compareFaceDescriptors [(0:ℝ)] [(0:ℝ)] = 0 :=
    compareFaceDescriptors_self [(0:ℝ)]
  have h : findBestMatch [(0:ℝ)] [⟨[(0:ℝ)], "A", "a"⟩] 0.6 = some ⟨"A", "a", 1⟩ := by
    simp only [findBestMatch, findBestMatchGo]
    rw [if_pos (by rw [hd]; norm_num)]
    rw [hd]
    norm_num
  obtain ⟨k, hk, -, -, -, -, hlow, hhigh⟩ :=
    findBestMatch_confidence [(0:ℝ)] [⟨[(0:ℝ)], "A", "a"⟩] 0.6 ⟨"A", "a", 1⟩ h
  exact ⟨h, hlow, hhigh⟩

/-- C4: when a strictly-qualifying candidate `t` attains the minimal
distance and a later candidate `t2` ties with it exactly, the scan returns
`t`, the earlier one; the later equal candidate never replaces it. -/
theorem findBestMatch_tie_break (input : List ℝ)
    (l1 l2 l3 : List KnownDescriptor) (t t2 : KnownDescriptor) (threshold : ℝ)
    (hthr : entryDist input t < threshold)
    (_heq : entryDist input t = entryDist input t2)
    (hfirst : ∀ k ∈ l1, entryDist input t < entryDist input k)
    (hmin : ∀ k ∈ l2 ++ t2 :: l3, entryDist input t ≤ entryDist input k) :
    findBestMatch input (l1 ++ t :: (l2 ++ t2 :: l3)) threshold =
      some ⟨t.userId, t.name, 1 - entryDist input t⟩ :=
  findBestMatchGo_first_min input l1 t (l2 ++ t2 :: l3) none threshold hthr hfirst hmin

/-- Witness for C4 on a concrete catalog with two candidates at the same
minimal distance 0: the earlier entry `A` wins. -/
theorem findBestMatch_tie_break_witness :
    findBestMatch [(0:ℝ)] [⟨[(0:ℝ)], "A", "a"⟩, ⟨[(0:ℝ)], "B", "b"⟩] 0.6 =
      some ⟨"A", "a", 1⟩ := by
  have hd : entryDist [(0:ℝ)] (⟨[(0:ℝ)], "A", "a"⟩ : KnownDescriptor) = 0 :=
    compareFaceDescriptors_self [(0:ℝ)]
  have hd2 : entryDist [(0:ℝ)] (⟨[(0:ℝ)], "B", "b"⟩ : KnownDescriptor) = 0 :=
    compareFaceDescriptors_self [(0:ℝ)]
  have h := findBestMatch_tie_break [(0:ℝ)] [] [] []
    ⟨[(0:ℝ)], "A", "a"⟩ ⟨[(0:ℝ)], "B", "b"⟩ 0.6
    (by rw [hd]; norm_num) (by rw [hd, hd2]) (by simp)
    (by
      intro k hk
      simp only [List.nil_append, List.mem_singleton] at hk
      rw [hk, hd, hd2])
  simp only [List.nil_append] at h
  rw [h, hd]
  norm_num

/-! ## Claims C2 and C10: the `/api/recognize` route -/

lemma recognizeWithThreshold_ne_badRequest (body : RecognizeBody) (fd : List ℝ)
    (catalog : List UserRecord) (th : ℝ) (msg : String) :
    recognizeWithThreshold body fd catalog th ≠ .badRequest msg := by
  simp only [recognizeWithThreshold]
  split <;> simp

/-- C2 (amended): with a valid 128-dimensional descriptor and a supplied
threshold `t`, the route rejects `t` strictly outside `[0, 1]` with the
threshold validation error before any matching; `t = 1` is accepted and
used as the effective threshold; `t = 0` is accepted (no 400 response) but
the default `0.6` is used as the effective threshold in its place, because
the route computes `body.threshold || 0.6` and `0` is falsy. -/
theorem recognizePOST_threshold (body : RecognizeBody) (fd : List ℝ) (t : ℝ)
    (catalog : List UserRecord) (hfd : body.faceDescriptor = some fd)
    (hlen : fd.length = 128) (ht : body.threshold = some t) :
    ((t < 0 ∨ 1 < t) →
      recognizePOST body catalog = .badRequest "Threshold must be between 0 and 1") ∧
    (t = 1 → recognizePOST body catalog = recognizeWithThreshold body fd catalog 1) ∧
    (t = 0 → recognizePOST body catalog = recognizeWithThreshold body fd catalog 0.6) ∧
    ((t = 0 ∨ t = 1) → ∀ msg, recognizePOST body catalog ≠ .badRequest msg) := by
  have hred : recognizePOST body catalog =
      (if jsOrNum (some t) 0.6 < 0 ∨ jsOrNum (some t) 0.6 > 1 then
        RecognizeResponse.badRequest "Threshold must be between 0 and 1"
      else recognizeWithThreshold body fd catalog (jsOrNum (some t) 0.6)) := by
    simp only [recognizePOST, hfd, ht]
    rw [if_neg (by simp [hlen])]
  refine ⟨?_, ?_, ?_, ?_⟩
  · intro hout
    have hne : t ≠ 0 := by
      rcases hout with hlt | hgt
      · exact ne_of_lt hlt
      · exact ne_of_gt (lt_trans one_pos hgt)
    have hjs : jsOrNum (some t) 0.6 = t := by simp [jsOrNum, hne]
    rw [hred, hjs, if_pos (by tauto)]
  · rintro rfl
    have hjs : jsOrNum (some (1:ℝ)) 0.6 = 1 := by norm_num [jsOrNum]
    rw [hred, hjs, if_neg (by norm_num)]
  · rintro rfl
    have hjs : jsOrNum (some (0:ℝ)) 0.6 = 0.6 := by simp [jsOrNum]
    rw [hred, hjs, if_neg (by norm_num)]
  · rintro (rfl | rfl) msg
    · have hjs : jsOrNum (some (0:ℝ)) 0.6 = 0.6 := by simp [jsOrNum]
      rw [hred, hjs, if_neg (by norm_num)]
      exact recognizeWithThreshold_ne_badRequest body fd catalog 0.6 msg
    · have hjs : jsOrNum (some (1:ℝ)) 0.6 = 1 := by norm_num [jsOrNum]
      rw [hred, hjs, if_neg (by norm_num)]
      exact recognizeWithThreshold_ne_badRequest body fd catalog 1 msg

/-- Witness for C2 (amended) on a concrete request with threshold 1.5: the
route answers with the threshold validation error. -/
theorem recognizePOST_threshold_witness :
    recognizePOST ⟨some (List.replicate 128 0), some 1.5, none⟩ [] =
      .badRequest "Threshold must be between 0 and 1" :=
  (recognizePOST_threshold ⟨some (List.replicate 128 0), some 1.5, none⟩
    (List.replicate 128 0) 1.5 [] rfl (by simp) rfl).1 (Or.inr (by norm_num))

/-- Counterexample to C2 as stated: a supplied threshold of exactly 0 is
not used as the effective threshold — the no-match response echoes the
effective threshold, and with `threshold = 0` in the request it echoes the
default 0.6 instead of 0. -/
theorem recognizePOST_threshold_zero_cex :
    recognizePOST ⟨some (List.replicate 128 0), some 0, none⟩ [] =
      .notRecognized 0.6 ∧
    recognizePOST ⟨some (List.replicate 128 0), some 0, none⟩ [] ≠
      .notRecognized 0 := by
  have h : recognizePOST ⟨some (List.replicate 128 0), some 0, none⟩ [] =
      .notRecognized 0.6 := by
    simp only [recognizePOST]
    rw [if_neg (by simp)]
    have hjs : jsOrNum (some (0:ℝ)) 0.6 = 0.6 := by simp [jsOrNum]
    rw [hjs, if_neg (by norm_num)]
    rfl
  refine ⟨h, ?_⟩
  rw [h]
  intro he
  have h06 : (0.6:ℝ) = 0 := by
    injection he
  norm_num at h06

/-- C10: whenever the route recognizes a user, the confidence recorded in
the session and returned in the response is the request body's own
`confidence` field when that field is present and truthy, and the constant
0.8 otherwise; it is `body.confidence || 0.8`, never a function of the
matched candidate's distance. -/
theorem recognizePOST_session_confidence (body : RecognizeBody)
    (catalog : List UserRecord) (uid nm : String) (em : Option String) (conf : ℝ)
    (h : recognizePOST body catalog = .recognized uid nm em conf) :
    conf = jsOrNum body.confidence 0.8 ∧
    (∀ c, body.confidence = some c → c ≠ 0 → conf = c) ∧
    ((body.confidence = none ∨ body.confidence = some 0) → conf = 0.8) := by
  have hconf : conf = jsOrNum body.confidence 0.8 := by
    cases hfd : body.faceDescriptor with
    | none =>
      rw [recognizePOST, hfd] at h
      exact absurd h (by simp)
    | some fd =>
      rw [recognizePOST, hfd] at h
      simp only at h
      by_cases hl : fd.length ≠ 128
      · rw [if_pos hl] at h
        exact absurd h (by simp)
      · rw [if_neg hl] at h
        by_cases hth : jsOrNum body.threshold 0.6 < 0 ∨ jsOrNum body.threshold 0.6 > 1
        · rw [if_pos hth] at h
          exact absurd h (by simp)
        · rw [if_neg hth] at h
          rw [recognizeWithThreshold] at h
          cases hu : findUserByFaceDescriptor fd (jsOrNum body.threshold 0.6) catalog with
          | none =>
            rw [hu] at h
            exact absurd h (by simp)
          | some u =>
            rw [hu] at h
            have := (RecognizeResponse.recognized.injEq _ _ _ _ _ _ _ _).mp h
            exact this.2.2.2.symm
  refine ⟨hconf, ?_, ?_⟩
  · intro c hc hcne
    rw [hconf, hc]
    simp [jsOrNum, hcne]
  · rintro (hc | hc) <;> rw [hconf, hc] <;> simp [jsOrNum]

/-- Witness for C10 on a concrete recognized request with no confidence
field: the reported confidence is the constant 0.8. -/
theorem recognizePOST_session_confidence_witness :
    recognizePOST ⟨some (List.replicate 128 0), none, none⟩
        [⟨"u1", "Alice", none, List.replicate 128 0⟩] =
      .recognized "u1" "Alice" none 0.8 ∧
    (0.8:ℝ) = jsOrNum none 0.8 := by
  have hdist : calculateEuclideanDistance (List.replicate 128 (0:ℝ))
      (List.replicate 128 0) = .ok 0 := by
    rw [calculateEuclideanDistance, if_neg (by simp), sumSqDiff_self, Real.sqrt_zero]
  have hfind : findUserByFaceDescriptor (List.replicate 128 (0:ℝ)) 0.6
      [⟨"u1", "Alice", none, List.replicate 128 0⟩] =
      some ⟨"u1", "Alice", none, List.replicate 128 0⟩ := by
    rw [findUserByFaceDescriptor]
    simp only [findUserGo, hdist]
    rw [if_pos (by norm_num)]
  have h : recognizePOST ⟨some (List.replicate 128 0), none, none⟩
      [⟨"u1", "Alice", none, List.replicate 128 0⟩] =
      .recognized "u1" "Alice" none 0.8 := by
    simp only [recognizePOST]
    rw [if_neg (by simp)]
    have hjs : jsOrNum none 0.6 = 0.6 := by simp [jsOrNum]
    rw [hjs, if_neg (by norm_num)]
    rw [recognizeWithThreshold, hfind]
    have hjc : jsOrNum none 0.8 = 0.8 := by simp [jsOrNum]
    rw [hjc]
  exact ⟨h, (recognizePOST_session_confidence _ _ _ _ _ _ h).1⟩

/-! ## Claims C5, C6 and C7: enrollment aggregation -/

lemma get?_eq_some_getD : ∀ (l : List ℝ) (i : ℕ), i < l.length →
    l.get? i = some (l.getD i 0)
  | _ :: _, 0, _ => rfl
  | _ :: xs, i + 1, h => get?_eq_some_getD xs i (by simpa using h)
  | [], i, h => absurd h (by simp)

/-- When index `i` is in range for every summand, the JavaScript reduce
instantiated at `i` computes the real sum of the `i`-th coordinates, in
input order and with no `NaN`. -/
lemma sumAt_foldl_eq (i : ℕ) :
    ∀ (ds : List (List ℝ)) (s : ℝ),
      (∀ d ∈ ds, i < d.length) →
      ds.foldl (fun sum desc => jsAdd sum (desc.get? i)) (some s) =
        some (s + (ds.map fun d => d.getD i 0).sum)
  | [], s, _ => by simp
  | d :: ds, s, h => by
    have hd : i < d.length := h d (List.mem_cons_self d ds)
    rw [List.foldl_cons, get?_eq_some_getD d i hd]
    have hrec := sumAt_foldl_eq i ds (s + d.getD i 0)
      (fun d2 hd2 => h d2 (List.mem_cons_of_mem d hd2))
    simp only [jsAdd] at hrec ⊢
    rw [hrec]
    simp [add_assoc]

/-- C5: for three or more valid embeddings of a common length `n`, the
aggregated embedding also has length `n` and its `i`-th coordinate is the
arithmetic mean (sum in input order, divided by the count) of the inputs'
`i`-th coordinates. -/
theorem avgDescriptor_mean (ds : List (List ℝ)) (n : ℕ)
    (h3 : 3 ≤ ds.length) (hlen : ∀ d ∈ ds, d.length = n) :
    (avgDescriptor ds).length = n ∧
    ∀ i, i < n → (avgDescriptor ds).get? i =
      some (some ((ds.map fun d => d.getD i 0).sum / (ds.length : ℝ))) := by
  obtain ⟨d0, rest, rfl⟩ : ∃ d0 rest, ds = d0 :: rest := by
    cases ds with
    | nil => simp at h3
    | cons a b => exact ⟨a, b, rfl⟩
  have hd0 : d0.length = n := hlen d0 (List.mem_cons_self d0 rest)
  constructor
  · simp [avgDescriptor, hd0]
  · intro i hi
    have hall : ∀ d ∈ d0 :: rest, i < d.length := by
      intro d hd
      rw [hlen d hd]
      exact hi
    rw [avgDescriptor]
    rw [List.get?_map, List.get?_range (by rw [hd0]; exact hi)]
    simp only [Option.map_some', sumAt]
    rw [sumAt_foldl_eq i (d0 :: rest) 0 hall]
    simp

/-- Witness for C5 on three concrete one-dimensional embeddings: the
aggregate of `[1]`, `[2]`, `[3]` has length 1 and coordinate `(1+2+3)/3 = 2`. -/
theorem avgDescriptor_mean_witness :
    (avgDescriptor [[(1:ℝ)], [2], [3]]).length = 1 ∧
    (avgDescriptor [[(1:ℝ)], [2], [3]]).get? 0 = some (some 2) := by
  obtain ⟨hl, hc⟩ := avgDescriptor_mean [[(1:ℝ)], [2], [3]] 1 (by norm_num)
    (by
      intro d hd
      simp only [List.mem_cons, List.not_mem_nil, or_false] at hd
      rcases hd with rfl | rfl | rfl <;> rfl)
  refine ⟨hl, ?_⟩
  rw [hc 0 (by norm_num)]
  norm_num [List.getD]

/-- C6: fewer than 3 photos with a detected face abort enrollment with the
insufficient-samples error carrying the actual and required counts; exactly
3 valid photos proceed to submission. -/
theorem processTrainingData_min_samples (photos : List TrainingPhoto) :
    ((photos.filter fun p => p.descriptor.isSome).length < 3 →
      processTrainingData photos =
        .insufficientSamples (photos.filter fun p => p.descriptor.isSome).length 3) ∧
    ((photos.filter fun p => p.descriptor.isSome).length = 3 →
      ∃ avg, processTrainingData photos = .submitted avg 3) := by
  constructor
  · intro h
    rw [processTrainingData]
    rw [if_pos h]
  · intro h
    rw [processTrainingData]
    rw [if_neg (by rw [h]; norm_num)]
    exact ⟨_, by rw [h]⟩

/-- Witness for C6: one valid photo out of two fails with counts (1, 3);
three valid photos are submitted with sample count 3. -/
theorem processTrainingData_min_samples_witness :
    processTrainingData [⟨true, some [(0:ℝ)]⟩, ⟨false, none⟩] =
      .insufficientSamples 1 3 ∧
    ∃ avg, processTrainingData
        [⟨true, some [(0:ℝ)]⟩, ⟨true, some [0]⟩, ⟨true, some [0]⟩] =
      .submitted avg 3 := by
  constructor
  · have hf : ([⟨true, some [(0:ℝ)]⟩, ⟨false, none⟩] :
        List TrainingPhoto).filter (fun p => p.descriptor.isSome) =
        [⟨true, some [(0:ℝ)]⟩] := rfl
    have h := (processTrainingData_min_samples
      [⟨true, some [(0:ℝ)]⟩, ⟨false, none⟩]).1
    rw [hf] at h
    exact h (by norm_num)
  · have hf : ([⟨true, some [(0:ℝ)]⟩, ⟨true, some [0]⟩, ⟨true, some [0]⟩] :
        List TrainingPhoto).filter (fun p => p.descriptor.isSome) =
        [⟨true, some [(0:ℝ)]⟩, ⟨true, some [0]⟩, ⟨true, some [0]⟩] := rfl
    have h := (processTrainingData_min_samples
      [⟨true, some [(0:ℝ)]⟩, ⟨true, some [0]⟩, ⟨true, some [0]⟩]).2
    rw [hf] at h
    exact h rfl

/-- Counterexample to C7 as stated: with three valid embeddings of unequal
lengths (2, 3, 3) the aggregation does not fail at all — it submits a
canonical embedding (of the first embedding's length, 2). -/
theorem processTrainingData_dimension_cex :
    processTrainingData
        [⟨true, some [(0:ℝ), 0]⟩, ⟨true, some [0, 0, 0]⟩, ⟨true, some [0, 0, 0]⟩] =
      .submitted [some 0, some 0] 3 := by
  have hfc : ([⟨true, some [(0:ℝ), 0]⟩, ⟨true, some [0, 0, 0]⟩,
      ⟨true, some [0, 0, 0]⟩] : List TrainingPhoto).filter
        (fun p => p.descriptor.isSome) =
      [⟨true, some [(0:ℝ), 0]⟩, ⟨true, some [0, 0, 0]⟩, ⟨true, some [0, 0, 0]⟩] := rfl
  have havg : avgDescriptor [[(0:ℝ), 0], [0, 0, 0], [0, 0, 0]] = [some 0, some 0] := by
    have h01 : List.range ([(0:ℝ), 0]).length = [0, 1] := rfl
    rw [avgDescriptor, h01]
    simp [sumAt, jsAdd]
  have hmap : ([⟨true, some [(0:ℝ), 0]⟩, ⟨true, some [0, 0, 0]⟩,
      ⟨true, some [0, 0, 0]⟩] : List TrainingPhoto).map
        (fun photo => photo.descriptor.getD []) =
      [[(0:ℝ), 0], [0, 0, 0], [0, 0, 0]] := rfl
  rw [processTrainingData, hfc]
  rw [if_neg (by norm_num)]
  rw [hmap, havg]
  rfl

/-- C7 (amended): aggregation performs no dimension check — for any batch
with at least 3 valid photos, whatever the embedding lengths, it submits a
canonical embedding whose length is that of the FIRST valid embedding
(coordinates that read past a shorter embedding are `NaN`, and longer
embeddings' extra coordinates are silently ignored). -/
theorem processTrainingData_no_dimension_check (photos : List TrainingPhoto)
    (d0 : List ℝ) (rest : List (List ℝ))
    (h3 : 3 ≤ (photos.filter fun p => p.descriptor.isSome).length)
    (hmap : (photos.filter fun p => p.descriptor.isSome).map
      (fun p => p.descriptor.getD []) = d0 :: rest) :
    ∃ avg, processTrainingData photos =
        .submitted avg (photos.filter fun p => p.descriptor.isSome).length ∧
      avg.length = d0.length := by
  rw [processTrainingData]
  rw [if_neg (not_lt.mpr h3)]
  refine ⟨_, rfl, ?_⟩
  rw [hmap, avgDescriptor]
  simp

/-- Witness for C7 (amended) on concrete mismatched embeddings of lengths
(3, 2, 2): submission happens and the aggregate has length 3. -/
theorem processTrainingData_no_dimension_check_witness :
    ∃ avg, processTrainingData
        [⟨true, some [(0:ℝ), 0, 0]⟩, ⟨true, some [0, 0]⟩, ⟨true, some [0, 0]⟩] =
      .submitted avg 3 ∧ avg.length = 3 := by
  have hf : ([⟨true, some [(0:ℝ), 0, 0]⟩, ⟨true, some [0, 0]⟩,
      ⟨true, some [0, 0]⟩] : List TrainingPhoto).filter
        (fun p => p.descriptor.isSome) =
      [⟨true, some [(0:ℝ), 0, 0]⟩, ⟨true, some [0, 0]⟩, ⟨true, some [0, 0]⟩] := rfl
  have h := processTrainingData_no_dimension_check
    [⟨true, some [(0:ℝ), 0, 0]⟩, ⟨true, some [0, 0]⟩, ⟨true, some [0, 0]⟩]
    [(0:ℝ), 0, 0] [[0, 0], [0, 0]] (by rw [hf]; norm_num) (by rw [hf]; rfl)
  rw [hf] at h
  exact h

end

end MagicMirror
